import Mathlib

/-!
Verification of the host-protocol client (`src/lib/sn-api.ts`, current
iteration, the one registering listeners in the constructor) and of the
markdown board codec (`src/lib/markdown.ts`).

The embedding is shallow: inbound payloads are JSON-shaped values (`JVal`),
the mutable fields of the `SNExtensionAPI` singleton become an explicit
`ApiState` record, the `Map` used for the correlation table becomes an
association list with `Map.set`/`Map.delete`/`Map.get` semantics, and the
observable effects of a handler run (consumer-callback invocations,
correlation-handler invocations, transmitted messages) are collected in an
event list.  `crypto.randomUUID` produces a fresh identifier on every call;
this is modelled by a `nextId` counter, so generated identifiers are the
strings `"uuid-" ++ n`, pairwise distinct and nonempty (hence truthy), like
real uuids.  JavaScript exceptions escaping a handler are modelled by a
`threw` flag carrying the state as mutated up to the throw point.
-/

/-- JSON-shaped values, the shape of `event.data` after normalization and of
all message payloads.  Objects are field lists without duplicate keys (as
produced by `JSON.parse` / structured clone). -/
inductive JVal where
  | jnull : JVal
  | jbool (b : Bool) : JVal
  | jnum (n : Int) : JVal
  | jstr (s : String) : JVal
  | jarr (elems : List JVal) : JVal
  | jobj (fields : List (String × JVal)) : JVal

/-- First-match lookup in an association list (`Map.get` on duplicate-free
lists). -/
def alookup {α : Type} : List (String × α) → String → Option α
  | [], _ => none
  | (k, v) :: rest, key => if k = key then some v else alookup rest key

/-- `Map.set`: replace the value at an existing key in place, else append. -/
def aset {α : Type} : List (String × α) → String → α → List (String × α)
  | [], key, v => [(key, v)]
  | (k, w) :: rest, key, v =>
      if k = key then (k, v) :: rest else (k, w) :: aset rest key v

/-- `Map.delete`: remove the entry with the given key. -/
def aremove {α : Type} (l : List (String × α)) (key : String) :
    List (String × α) :=
  l.filter (fun p => !(p.1 == key))

theorem alookup_aset_self {α : Type} (l : List (String × α)) (k : String)
    (v : α) : alookup (aset l k v) k = some v := by
  induction l with
  | nil => simp [aset, alookup]
  | cons p rest ih =>
      by_cases h : p.1 = k
      · simp [aset, alookup, h]
      · simp [aset, alookup, h, ih]

theorem alookup_aset_other {α : Type} (l : List (String × α))
    (k k' : String) (v : α) (h : k' ≠ k) :
    alookup (aset l k v) k' = alookup l k' := by
  induction l with
  | nil => simp [aset, alookup, Ne.symm h]
  | cons p rest ih =>
      by_cases hp : p.1 = k
      · simp [aset, alookup, hp, Ne.symm h]
      · simp [aset, alookup, hp]
        by_cases hq : p.1 = k'
        · simp [hq]
        · simp [hq, ih]

theorem alookup_aremove_self {α : Type} (l : List (String × α)) (k : String) :
    alookup (aremove l k) k = none := by
  induction l with
  | nil => simp [aremove, alookup]
  | cons p rest ih =>
      by_cases h : p.1 = k
      · simpa [aremove, alookup, h] using ih
      · simpa [aremove, alookup, h] using ih

theorem aset_fresh_append {α : Type} (l : List (String × α)) (k : String)
    (v : α) (h : alookup l k = none) : aset l k v = l ++ [(k, v)] := by
  induction l with
  | nil => simp [aset]
  | cons p rest ih =>
      by_cases hp : p.1 = k
      · simp [alookup, hp] at h
      · simp [alookup, hp] at h
        simp [aset, hp, ih h]

/-- Does `pat` occur as a prefix of `cs`? -/
def listHasPre : List Char → List Char → Bool
  | [], _ => true
  | _ :: _, [] => false
  | a :: as, b :: bs => a = b && listHasPre as bs

/-- `trim` on a character list: strip whitespace from both ends. -/
def trimChars (cs : List Char) : List Char :=
  ((cs.dropWhile Char.isWhitespace).reverse.dropWhile Char.isWhitespace).reverse

/-- `s.trim()` (kernel-computable; core `String.trim` does not reduce). -/
def jsTrim (s : String) : String := String.mk (trimChars s.data)

/-- `line.trimStart()` (also used for `toLowerCase().trimStart()`). -/
def jsTrimStart (s : String) : String :=
  String.mk (s.data.dropWhile Char.isWhitespace)

/-- `line.toLowerCase()` (all keyword matching in the parser is ASCII). -/
def jsToLower (s : String) : String := String.mk (s.data.map Char.toLower)

/-- `s.startsWith(pat)` (kernel-computable). -/
def jsStarts (s pat : String) : Bool := listHasPre pat.data s.data

/-- `s.slice(n)` for a nonnegative index, counted in characters. -/
def jsDrop (s : String) (n : Nat) : String := String.mk (s.data.drop n)

/-- `s.substring(0, n)` / `.take`, counted in characters. -/
def jsTake (s : String) (n : Nat) : String := String.mk (s.data.take n)

/-- Split a character list at a separator character. -/
def splitChars (sep : Char) : List Char → List (List Char)
  | [] => [[]]
  | c :: rest =>
      let r := splitChars sep rest
      if c = sep then [] :: r
      else
        match r with
        | [] => [[c]]
        | g :: gs => (c :: g) :: gs

/-- `text.split('\n')` (kernel-computable). -/
def jsSplitNl (s : String) : List String :=
  (splitChars '\n' s.data).map String.mk

/-- `parts.join(sep)` (kernel-computable `intercalate`). -/
def jsJoin (sep : String) : List String → String
  | [] => ""
  | [p] => p
  | p :: rest => p ++ sep ++ jsJoin sep rest

/-- JavaScript truthiness of a `JVal` (`NaN` is not representable here). -/
def truthy : JVal → Bool
  | JVal.jnull => false
  | JVal.jbool b => b
  | JVal.jnum n => !(n == 0)
  | JVal.jstr s => !(s == "")
  | JVal.jarr _ => true
  | JVal.jobj _ => true

/-- Truthiness of a possibly-undefined value (`none` = `undefined`). -/
def truthyO : Option JVal → Bool
  | some v => truthy v
  | none => false

/-- Property access `v.key` on a non-nullish value: only plain objects expose
the fields we read; on primitives and arrays these accesses yield
`undefined`. -/
def getF : JVal → String → Option JVal
  | JVal.jobj fs, key => alookup fs key
  | _, _ => none

/-- Property access through a possibly-undefined base that is known not to
throw (guarded by a truthiness check in the source, or by `?.`). -/
def getFO : Option JVal → String → Option JVal
  | some v, key => getF v key
  | none, _ => none

/-- `a || b`: keep `a` when truthy, else fall back. -/
def jsOr (v : Option JVal) (w : JVal) : JVal :=
  match v with
  | some x => if truthy x then x else w
  | none => w

/-- Is the value nullish (`null` or `undefined`)?  Member access on a
nullish value throws a `TypeError`. -/
def nullish : Option JVal → Bool
  | none => true
  | some JVal.jnull => true
  | _ => false

/-- Does `x?.slice(0, 8)` throw?  Optional chaining short-circuits only on
nullish values; strings and arrays have a `slice` method; any other
non-nullish value (numbers, booleans, plain objects) throws a `TypeError`.
The debug log lines of sn-api.ts evaluate such expressions mid-handler. -/
def sliceThrows : Option JVal → Bool
  | none => false
  | some JVal.jnull => false
  | some (JVal.jstr _) => false
  | some (JVal.jarr _) => false
  | some _ => true

/-- Object spread `{...v}`: fields of an object, index-keyed entries of an
array or string, nothing for other primitives. -/
def spreadFields : JVal → List (String × JVal)
  | JVal.jobj fs => fs
  | JVal.jarr xs => xs.enum.map (fun p => (Nat.repr p.1, p.2))
  | JVal.jstr s =>
      s.toList.enum.map (fun p => (Nat.repr p.1, JVal.jstr (String.singleton p.2)))
  | _ => []

/-- Spread of a possibly-undefined value (`{...undefined}` is `{}`). -/
def spreadO : Option JVal → List (String × JVal)
  | some v => spreadFields v
  | none => []

/-- Strategy (c) of the extractor: `if (data.content && data.uuid) return
data`, else no match. -/
def strategyC (v : JVal) : Option JVal :=
  if truthyO (getF v "content") && truthyO (getF v "uuid") then some v
  else none

/-- Is the value JavaScript `null`?  (Property access on `null` throws.) -/
def isNull : JVal → Bool
  | JVal.jnull => true
  | _ => false

/-- `extractItem` (sn-api.ts): three strategies tried in order.  The access
`data.items[0].content` throws a `TypeError` when the first array element is
`null`; that is the only way this function can throw, reflected in the
`Except` error. -/
def extractItem : Option JVal → Except Unit (Option JVal)
  | none => Except.ok none
  | some v =>
      if truthy v = false then Except.ok none
      else
        let it := getF v "item"
        if truthyO it && truthyO (getFO it "content") then Except.ok it
        else
          match getF v "items" with
          | some (JVal.jarr (x :: _)) =>
              if isNull x then Except.error ()
              else if truthyO (getF x "content") then Except.ok (some x)
              else Except.ok (strategyC v)
          | _ => Except.ok (strategyC v)

/-- The claim's three-strategy contract, written from its words: (a) a nested
single-item field with a content sub-field, (b) a list field whose first
element has a content sub-field, (c) the payload itself with both an
identifier and a content sub-field; first match or none.  ("With a content
sub-field" is the source's truthiness test on `content`.)  Total: a strategy
that does not match falls through to the next. -/
def specThreeStrategy : Option JVal → Option JVal
  | none => none
  | some v =>
      if truthy v = false then none
      else
        let it := getF v "item"
        if truthyO it && truthyO (getFO it "content") then it
        else
          match getF v "items" with
          | some (JVal.jarr (x :: _)) =>
              if truthyO (getF x "content") then some x
              else strategyC v
          | _ => strategyC v

/-- The exact condition under which `extractItem` throws: strategies run on a
truthy payload, strategy (a) fails, and the `items` field is an array whose
first element is `null`. -/
def extractThrows : Option JVal → Bool
  | none => false
  | some v =>
      if truthy v = false then false
      else
        let it := getF v "item"
        if truthyO it && truthyO (getFO it "content") then false
        else
          match getF v "items" with
          | some (JVal.jarr (x :: _)) => isNull x
          | _ => false

example : extractItem (some (JVal.jobj [("items", JVal.jarr [JVal.jnull])])) =
    Except.error () := rfl

example :
    extractItem (some (JVal.jobj
      [("item", JVal.jobj [("content", JVal.jobj [("text", JVal.jstr "hi")])])])) =
    Except.ok (some (JVal.jobj [("content", JVal.jobj [("text", JVal.jstr "hi")])])) := rfl

example : extractItem (some (JVal.jobj [("content", JVal.jstr "x")])) =
    Except.ok none := rfl

/-- An entry of the correlation table `sentMessages`.  Stored as
`{ action, callback }` in the source; the callback stored under action
`stream-context-item` is always the registration handler's subscription
closure (the only closure ever registered under that action), so only the
action tag needs to be recorded. -/
structure SentMsg where
  action : String
deriving DecidableEq

/-- A message actually handed to `target.postMessage` by `postMessage`
(`api: 'component'` is a constant field and omitted). -/
structure OutMsg where
  action : String
  data : JVal
  messageId : String
  sessionKey : JVal

/-- Observable effects of running the client: a consumer-callback
invocation, a correlation-table handler invocation (`sent.callback(...)`),
or a transmitted outbound message.  Consumer callbacks are identified by a
number, standing for the function object's identity. -/
inductive Ev where
  | cbInvoke (cb : Nat) (text : String)
  | handlerInvoke (id : String) (data : Option JVal)
  | sent (m : OutMsg)

/-- The mutable fields of the `SNExtensionAPI` singleton.  `nextId` drives
fresh-uuid generation. -/
structure ApiState where
  sessionKey : JVal
  contentCallback : Option Nat
  currentItem : Option JVal
  origin : String
  registered : Bool
  sentMessages : List (String × SentMsg)
  pendingSaveText : Option String
  pendingItemText : Option String
  nextId : Nat

/-- The field initializers of `SNExtensionAPI` (the constructor also
registers the two transport listeners; listener registration is not part of
the mutable state and `destroy` never touches it). -/
def initState : ApiState :=
  { sessionKey := JVal.jnull, contentCallback := none, currentItem := none,
    origin := "*", registered := false, sentMessages := [],
    pendingSaveText := none, pendingItemText := none, nextId := 0 }

/-- `generateUuid`, modelled by the call counter: distinct nonempty strings,
like real uuids. -/
def generateUuid (n : Nat) : String := "uuid-" ++ Nat.repr n

/-- Result of one run of a handler or method.  `threw` is set when a
JavaScript exception escapes; `state` then holds the mutations made before
the throw point. -/
structure HOut where
  state : ApiState
  events : List Ev
  threw : Bool

/-- `postMessage(action, data, callback?)`: allocate a fresh identifier,
register the handler entry when a callback is supplied, and transmit only
when `registered` is set.  Note the entry is registered before the
`registered` gate is checked, so a blocked send still mutates the
correlation table. -/
def postMessage (s : ApiState) (action : String) (data : JVal)
    (hasCallback : Bool) : ApiState × List Ev :=
  let messageId := generateUuid s.nextId
  let table :=
    if hasCallback then aset s.sentMessages messageId ⟨action⟩
    else s.sentMessages
  let s1 : ApiState := { s with nextId := s.nextId + 1, sentMessages := table }
  (s1, if s1.registered then
    [Ev.sent { action := action, data := data, messageId := messageId,
               sessionKey := s1.sessionKey }]
  else [])

/-- `item.content.text || ''` — the text payload of an item (the `SNItem`
interface types `content.text` as a string, so the `|| ''` fallback fires
exactly on a missing/empty/non-string field). -/
def itemText (item : JVal) : String :=
  match getFO (getF item "content") "text" with
  | some (JVal.jstr s) => s
  | _ => ""

/-- The preview computed by `saveText`: first three nonblank lines not
starting with `@`, leading `#`/`*`/whitespace stripped, joined with
`" | "`, truncated to 90 characters. -/
def previewOf (text : String) : String :=
  let ls := (jsSplitNl text).filter
    (fun l => !(jsTrim l == "") && !(listHasPre ['@'] l.data))
  jsTake (jsJoin " | "
    ((ls.take 3).map
      (fun l => String.mk (l.data.dropWhile
        (fun c => c = '#' || c = '*' || c.isWhitespace))))) 90

/-- The updated item built by `saveText`:
`{...currentItem, content: {...currentItem.content, text, preview_plain}}`. -/
def updatedItem (cur : JVal) (text : String) : JVal :=
  JVal.jobj (aset (spreadFields cur) "content"
    (JVal.jobj (aset (aset (spreadO (getF cur "content")) "text"
      (JVal.jstr text)) "preview_plain" (JVal.jstr (previewOf text)))))

/-- `saveText(text)`: with no cached item, buffer the text (last write wins)
and return; otherwise merge the text into the cached item, cache the merged
item, and send a `save-items` request (no response callback is registered
for it).  The debug log evaluates `updatedItem.uuid?.slice(0, 8)` after the
cache update but before the send, so a cached item whose `uuid` field is a
non-nullish value without a `slice` method makes this throw with the item
already updated and nothing sent. -/
def saveText (s : ApiState) (text : String) : HOut :=
  match s.currentItem with
  | none => ⟨{ s with pendingSaveText := some text }, [], false⟩
  | some cur =>
      let u := updatedItem cur text
      let s1 : ApiState := { s with currentItem := some u }
      if sliceThrows (getF u "uuid") then ⟨s1, [], true⟩
      else
        let r := postMessage s1 "save-items"
          (JVal.jobj [("items", JVal.jarr [u])]) false
        ⟨r.1, r.2, false⟩

/-- `setItem(item)`: cache the item, deliver its text to the consumer
callback or buffer it in `pendingItemText`, then flush any pending save
(clearing the pending-save buffer before the flush).  Two throw points run
after the cache update and before delivery: `item.content.text` throws on a
nullish `content` field, and the debug log's `item.uuid?.slice(0, 8)` throws
on a non-nullish `uuid` without a `slice` method. -/
def setItem (s : ApiState) (item : JVal) : HOut :=
  let s1 : ApiState := { s with currentItem := some item }
  if nullish (getF item "content") then ⟨s1, [], true⟩
  else if sliceThrows (getF item "uuid") then ⟨s1, [], true⟩
  else
    let t := itemText item
    let step1 : ApiState × List Ev :=
      match s1.contentCallback with
      | some cb => (s1, [Ev.cbInvoke cb t])
      | none => ({ s1 with pendingItemText := some t }, [])
    match step1.1.pendingSaveText with
    | some pt =>
        let r := saveText { step1.1 with pendingSaveText := none } pt
        ⟨r.state, step1.2 ++ r.events, r.threw⟩
    | none => ⟨step1.1, step1.2, false⟩

/-- `initialize(callback)` (the source method named after the React mount
hook): store the consumer callback; if the host delivered content before the
consumer attached, replay the buffered text once and clear the buffer. -/
def initializeApi (s : ApiState) (cb : Nat) : ApiState × List Ev :=
  let s1 : ApiState := { s with contentCallback := some cb }
  match s1.pendingItemText with
  | some t => ({ s1 with pendingItemText := none }, [Ev.cbInvoke cb t])
  | none => (s1, [])

/-- `destroy()`: clears the consumer callback and the pending content
buffer; listeners, correlation table, cached item and pending save text are
untouched. -/
def destroy (s : ApiState) : ApiState :=
  { s with contentCallback := none, pendingItemText := none }

/-- `typeof v === 'object'` (null and arrays included). -/
def typeofObject : JVal → Bool
  | JVal.jobj _ => true
  | JVal.jarr _ => true
  | JVal.jnull => true
  | _ => false

/-- `for (const url of urls)` throws a `TypeError` unless the value is
iterable; of the JSON shapes only arrays and strings are. -/
def nonIterable : JVal → Bool
  | JVal.jarr _ => false
  | JVal.jstr _ => false
  | _ => true

/-- `message.componentData?.activeThemeUrls || message.data?.activeThemeUrls
|| []`. -/
def themeUrlsOf (v : JVal) : JVal :=
  jsOr (getFO (getF v "componentData") "activeThemeUrls")
    (jsOr (getFO (getF v "data") "activeThemeUrls") (JVal.jarr []))

/-- The `component-registered` branch: store the session key and origin and
set the `registered` gate; then the debug log evaluates
`this.sessionKey?.slice(0, 8)`, which throws for a stored session key that
is a non-nullish value without a `slice` method, aborting before any theme
work or send; then inject themes (DOM-only, except that iterating a
non-iterable URL value throws), acknowledge themes, and post the content
subscription, registering its handler. -/
def regBranch (s : ApiState) (eventOrigin : String) (v : JVal) : HOut :=
  let s1 : ApiState :=
    { s with sessionKey := jsOr (getF v "sessionKey") JVal.jnull,
             origin := if eventOrigin = "" then "*" else eventOrigin,
             registered := true }
  if sliceThrows (some s1.sessionKey) then { state := s1, events := [], threw := true }
  else
    let urls := themeUrlsOf v
    if nonIterable urls then { state := s1, events := [], threw := true }
    else
      let r2 := postMessage s1 "themes-activated" (JVal.jobj []) false
      let r3 := postMessage r2.1 "stream-context-item" (JVal.jobj []) true
      { state := r3.1, events := r2.2 ++ r3.2, threw := false }

/-- The `themes` branch: `activateThemes(message.data?.themes || [])`; pure
DOM work apart from the non-iterable throw. -/
def themesBranch (s : ApiState) (v : JVal) : HOut :=
  if nonIterable (jsOr (getFO (getF v "data") "themes") (JVal.jarr [])) then
    { state := s, events := [], threw := true }
  else { state := s, events := [], threw := false }

/-- The subscription closure registered by the `component-registered`
branch: extract an item from the response payload and, unless it is flagged
metadata-only, deliver it through `setItem`.  Between extraction and the
metadata check the debug log evaluates `item.uuid?.slice(0, 8)`, which
throws when the extracted item's `uuid` field is a non-nullish value without
a `slice` method (extraction never inspects `uuid` on strategies (a) and
(b)). -/
def subClosure (s : ApiState) (rd : Option JVal) : HOut :=
  match extractItem rd with
  | Except.error _ => { state := s, events := [], threw := true }
  | Except.ok none => { state := s, events := [], threw := false }
  | Except.ok (some item) =>
      if sliceThrows (getF item "uuid") then
        { state := s, events := [], threw := true }
      else if truthyO (getF item "isMetadataUpdate") then
        { state := s, events := [], threw := false }
      else setItem s item

/-- The `default` branch: correlation matching by `original.messageId`.
The matching debug log evaluates `originalId?.slice(0, 8)` before the table
lookup, throwing for a non-nullish `messageId` without a `slice` method.  A
matched persistent (`stream-context-item`) entry has its handler invoked and
is retained; a matched entry under any other action is deleted without
invoking its handler; anything else is a silent no-op. -/
def defaultBranch (s : ApiState) (v : JVal) : HOut :=
  if truthyO (getF v "original") = false then
    { state := s, events := [], threw := false }
  else if sliceThrows (getFO (getF v "original") "messageId") then
    { state := s, events := [], threw := true }
  else
    match getFO (getF v "original") "messageId" with
    | some (JVal.jstr k) =>
        if k = "" then { state := s, events := [], threw := false }
        else
          match alookup s.sentMessages k with
          | some e =>
              if e.action = "stream-context-item" then
                let r := subClosure s (getF v "data")
                { state := r.state,
                  events := Ev.handlerInvoke k (getF v "data") :: r.events,
                  threw := r.threw }
              else
                { state := { s with sentMessages := aremove s.sentMessages k },
                  events := [], threw := false }
          | none => { state := s, events := [], threw := false }
    | _ => { state := s, events := [], threw := false }

/-- A raw inbound `event.data`: either a string that fails `JSON.parse`, or
a JSON-shaped value (a non-string payload, or the parse result of a string
payload). -/
inductive Inbound where
  | badString (raw : String)
  | val (v : JVal)

/-- `handleMessage`: normalize the payload, discard silently when it is not
an object or lacks an action tag, then dispatch on the action. -/
def handleMessage (s : ApiState) (eventOrigin : String) (raw : Inbound) :
    HOut :=
  match raw with
  | Inbound.badString _ => { state := s, events := [], threw := false }
  | Inbound.val v =>
      if truthy v = false || typeofObject v = false then
        { state := s, events := [], threw := false }
      else if truthyO (getF v "action") = false then
        { state := s, events := [], threw := false }
      else
        match getF v "action" with
        | some (JVal.jstr a) =>
            if a = "component-registered" then regBranch s eventOrigin v
            else if a = "themes" then themesBranch s v
            else defaultBranch s v
        | _ => defaultBranch s v

/-- Messages actually transmitted during a run. -/
def sentEvents (evs : List Ev) : List OutMsg :=
  evs.filterMap (fun e => match e with | Ev.sent m => some m | _ => none)

/-- Consumer-callback invocations during a run. -/
def cbEvents (evs : List Ev) : List (Nat × String) :=
  evs.filterMap (fun e => match e with | Ev.cbInvoke c t => some (c, t) | _ => none)

/-- Correlation-handler invocations during a run. -/
def handlerEvents (evs : List Ev) : List (String × Option JVal) :=
  evs.filterMap
    (fun e => match e with | Ev.handlerInvoke k d => some (k, d) | _ => none)

/-- The string value of `u.content.text`, when present. -/
def itemTextField (u : JVal) : Option String :=
  match getFO (getF u "content") "text" with
  | some (JVal.jstr s) => some s
  | _ => none

/-- The text carried by a `save-items` message: `data.items[0].content.text`. -/
def savedText (m : OutMsg) : Option String :=
  match getF m.data "items" with
  | some (JVal.jarr (u :: _)) => itemTextField u
  | _ => none

/-- Number of persistent (content-subscription) entries in the correlation
table. -/
def countPersistent (l : List (String × SentMsg)) : Nat :=
  (l.filter (fun p => p.2.action == "stream-context-item")).length

/-- A sequence of consecutive `saveText` calls, events concatenated; a
throw aborts the remaining calls. -/
def saveSeq : ApiState → List String → HOut
  | s, [] => ⟨s, [], false⟩
  | s, t :: ts =>
      let r := saveText s t
      if r.threw then r
      else
        let r2 := saveSeq r.state ts
        ⟨r2.state, r.events ++ r2.events, r2.threw⟩

/-- A card of the kanban board (`KanbanCard` sans the random `id`, which is
a fresh identity tag, not semantic content). -/
structure KCard where
  title : String
  description : String
  label : String
  labelColor : String
  dueDate : String
  comments : List String
deriving DecidableEq

/-- A lane of the kanban board (`KanbanLane` sans the random `id`). -/
structure KLane where
  title : String
  color : String
  cards : List KCard
deriving DecidableEq

/-- `KanbanBoard`. -/
structure Board where
  lanes : List KLane
deriving DecidableEq

/-- `EditorState`: a board plus the unparsed lines. -/
structure EState where
  board : Board
  parsingErrors : List String
deriving DecidableEq

/-- Replace the last element of a list (the parser mutates `currentLane` /
`currentCard`, which are always the most recently pushed lane / card). -/
def updateLast {α : Type} (f : α → α) : List α → List α
  | [] => []
  | [a] => [f a]
  | a :: rest => a :: updateLast f rest

/-- First index of `pat` in `cs`, if any (`String.prototype.indexOf`). -/
def idxOfAux (pat : List Char) : List Char → Nat → Option Nat
  | [], i => if listHasPre pat [] then some i else none
  | c :: rest, i =>
      if listHasPre pat (c :: rest) then some i
      else idxOfAux pat rest (i + 1)

/-- `s.indexOf(sub)` as an `Option` (`none` = `-1`). -/
def jsIndexOf (s sub : String) : Option Nat := idxOfAux sub.toList s.toList 0

/-- `line.slice(line.toLowerCase().indexOf(key) + klen).trim()`; the `none`
arm is the JS `-1 + klen` slice, unreachable under the branch guards. -/
def fieldVal (line lower key : String) (klen : Nat) : String :=
  match jsIndexOf lower key with
  | some i => jsTrim (jsDrop line (i + klen))
  | none => jsTrim (jsDrop line (klen - 1))

/-- `\w` of the lane-color regex. -/
def jsWordChar (c : Char) : Bool := c.isAlphanum || c = '_'

/-- Match of `\s*\[color:(\w+)\]\s*$` against a suffix: greedy whitespace,
the literal, one-or-more word characters, `]`, trailing whitespace. -/
def tailColorMatch (cs : List Char) : Option String :=
  let rest := cs.dropWhile Char.isWhitespace
  if listHasPre "[color:".toList rest then
    let afterKey := rest.drop 7
    let w := afterKey.takeWhile jsWordChar
    if w.isEmpty then none
    else
      match afterKey.drop w.length with
      | ']' :: tail => if tail.all Char.isWhitespace then some (String.mk w) else none
      | _ => none
  else none

/-- `laneText.match(/^(.*?)\s*\[color:(\w+)\]\s*$/)`: the lazy title group
takes the shortest possible span, so the match point is the earliest
position whose suffix matches the color tail. -/
def colorMatchAux : List Char → List Char → Option (String × String)
  | acc, cs =>
      match tailColorMatch cs with
      | some c => some (String.mk acc.reverse, c)
      | none =>
          match cs with
          | [] => none
          | c :: rest => colorMatchAux (c :: acc) rest

/-- The lane color match: title capture and color, or `none`. -/
def colorMatch (s : String) : Option (String × String) :=
  colorMatchAux [] s.toList

/-- Parser state while folding over lines; `lanes ≠ []` models
`currentLane !== null` (the current lane is always the last pushed one) and
`hasCard` models `currentCard !== null` (always the last card of the last
lane). -/
structure PState where
  lanes : List KLane
  hasCard : Bool
  inComments : Bool
  errors : List String

/-- Apply an update to the current card. -/
def setCardField (lanes : List KLane) (f : KCard → KCard) : List KLane :=
  updateLast (fun l => { l with cards := updateLast f l.cards }) lanes

/-- One iteration of the `parseMarkdown` line loop. -/
def processLine (st : PState) (line : String) : PState :=
  let lower := jsToLower line
  if jsTrim line = "" then st
  else if jsStarts line "# " then
    let laneText := jsTrim (jsDrop line 2)
    let lane : KLane :=
      match colorMatch laneText with
      | some (t, c) => { title := jsTrim t, color := c, cards := [] }
      | none => { title := laneText, color := "", cards := [] }
    { st with lanes := st.lanes ++ [lane], hasCard := false,
              inComments := false }
  else if jsStarts line "* " then
    match st.lanes with
    | [] => { st with errors := st.errors ++ ["Card before lane: " ++ line] }
    | _ :: _ =>
        let card : KCard :=
          { title := jsTrim (jsDrop line 2), description := "", label := "",
            labelColor := "", dueDate := "", comments := [] }
        { st with
          lanes := updateLast (fun l => { l with cards := l.cards ++ [card] }) st.lanes,
          hasCard := true, inComments := false }
  else if jsStarts (jsTrimStart lower) "* links: " then st
  else if jsStarts (jsTrimStart lower) "* description: " then
    if st.hasCard then
      let f := fun c => { c with description := fieldVal line lower "description: " 13 }
      { st with lanes := setCardField st.lanes f }
    else st
  else if jsStarts (jsTrimStart lower) "* label: " then
    if st.hasCard then
      let f := fun c => { c with label := fieldVal line lower "label: " 7 }
      { st with lanes := setCardField st.lanes f }
    else st
  else if jsStarts (jsTrimStart lower) "* labelcolor: " then
    if st.hasCard then
      let f := fun c => { c with labelColor := fieldVal line lower "labelcolor: " 12 }
      { st with lanes := setCardField st.lanes f }
    else st
  else if jsStarts (jsTrimStart lower) "* duedate: " then
    if st.hasCard then
      let f := fun c => { c with dueDate := fieldVal line lower "duedate: " 9 }
      { st with lanes := setCardField st.lanes f }
    else st
  else if jsStarts (jsTrimStart lower) "* comments:" then
    { st with inComments := true }
  else if st.inComments && jsStarts (jsTrimStart line) "* " then
    if st.hasCard then
      let f := fun c => { c with comments := c.comments ++ [jsDrop (jsTrimStart line) 2] }
      { st with lanes := setCardField st.lanes f }
    else st
  else { st with errors := st.errors ++ [line] }

/-- `parseMarkdown` (markdown.ts). -/
def parseMarkdown (markdown : String) : EState :=
  let st := (jsSplitNl markdown).foldl processLine
    { lanes := [], hasCard := false, inComments := false, errors := [] }
  { board := { lanes := st.lanes }, parsingErrors := st.errors }

/-- The serialized lines of one card. -/
def cardLines (c : KCard) : List String :=
  ["* " ++ c.title]
  ++ (if c.description = "" then [] else ["  * Description: " ++ c.description])
  ++ (if c.label = "" then [] else ["  * Label: " ++ c.label])
  ++ (if c.labelColor = "" then [] else ["  * LabelColor: " ++ c.labelColor])
  ++ (if c.dueDate = "" then [] else ["  * DueDate: " ++ c.dueDate])
  ++ (if c.comments.length = 0 then []
      else "  * Comments:" :: c.comments.map (fun cm => "    * " ++ cm))

/-- The serialized lines of one lane (header, cards, blank separator). -/
def laneLines (l : KLane) : List String :=
  ("# " ++ l.title ++ (if l.color = "" then "" else " [color:" ++ l.color ++ "]"))
  :: ((l.cards.map cardLines).flatten ++ [""])

/-- `boardToMarkdown` (markdown.ts): `parts.join('\n').trim() + '\n'`. -/
def boardToMarkdown (b : Board) : String :=
  jsTrim (jsJoin "\n" ((b.lanes.map laneLines).flatten)) ++ "\n"

/-- C9: parsing `"# To Do [color:blue]\n* Task1\n  * Label: x"` yields one
lane titled "To Do" with color "blue" holding one card titled "Task1" with
label "x"; serializing that board reproduces the markdown (here even
byte-identically, modulo the canonical trailing newline); and re-parsing the
serialization yields the same editor state, so the round trip is
semantics-preserving. -/
theorem markdownRoundTrip :
    parseMarkdown "# To Do [color:blue]\n* Task1\n  * Label: x" =
      ⟨⟨[⟨"To Do", "blue", [⟨"Task1", "", "x", "", "", []⟩]⟩]⟩, []⟩ ∧
    boardToMarkdown ⟨[⟨"To Do", "blue", [⟨"Task1", "", "x", "", "", []⟩]⟩]⟩ =
      "# To Do [color:blue]\n* Task1\n  * Label: x\n" ∧
    parseMarkdown (boardToMarkdown
        (parseMarkdown "# To Do [color:blue]\n* Task1\n  * Label: x").board) =
      parseMarkdown "# To Do [color:blue]\n* Task1\n  * Label: x" :=
  ⟨by decide, by decide, by decide⟩

/-- C10: a send carrying a response handler, attempted while the
`registered` gate is false, transmits nothing (and throws nothing —
`postMessage` is total), yet the handler entry is already registered in the
correlation table under the freshly generated identifier and stays there, so
a later inbound message bearing that identifier would still match it. -/
theorem blockedSendRegistersHandler (s : ApiState) (a : String) (d : JVal) :
    (postMessage { s with registered := false } a d true).2 = [] ∧
    (postMessage { s with registered := false } a d true).1.sentMessages =
      aset s.sentMessages (generateUuid s.nextId) ⟨a⟩ ∧
    alookup (postMessage { s with registered := false } a d true).1.sentMessages
      (generateUuid s.nextId) = some ⟨a⟩ ∧
    (postMessage { s with registered := false } a d true).1.nextId = s.nextId + 1 := by
  refine ⟨?_, ?_, ?_, ?_⟩ <;> simp [postMessage, alookup_aset_self]

/-- C8: a string payload that fails JSON decoding, a payload that is not an
object (falsy, or of a non-object runtime type), and an object payload
without a truthy action tag are all discarded: the handler returns without
throwing and the state is unchanged in every field. -/
theorem malformedInboundDiscarded :
    (∀ (s : ApiState) (eo raw : String),
      handleMessage s eo (Inbound.badString raw) = ⟨s, [], false⟩) ∧
    (∀ (s : ApiState) (eo : String) (v : JVal),
      truthy v = false ∨ typeofObject v = false →
      handleMessage s eo (Inbound.val v) = ⟨s, [], false⟩) ∧
    (∀ (s : ApiState) (eo : String) (fs : List (String × JVal)),
      truthyO (alookup fs "action") = false →
      handleMessage s eo (Inbound.val (JVal.jobj fs)) = ⟨s, [], false⟩) := by
  refine ⟨fun s eo raw => rfl, ?_, ?_⟩
  · intro s eo v h
    rcases h with h | h <;> simp [handleMessage, h]
  · intro s eo fs h
    simp [handleMessage, getF, typeofObject, truthy, h]

/-- C8 witness: the discard cases at concrete inputs. -/
theorem malformedInboundDiscarded_witness :
    handleMessage initState "" (Inbound.badString "][ not json") =
      ⟨initState, [], false⟩ ∧
    handleMessage initState "" (Inbound.val (JVal.jnum 5)) =
      ⟨initState, [], false⟩ ∧
    handleMessage initState "" (Inbound.val (JVal.jobj [("foo", JVal.jstr "bar")])) =
      ⟨initState, [], false⟩ :=
  ⟨malformedInboundDiscarded.1 initState "" "][ not json",
   malformedInboundDiscarded.2.1 initState "" (JVal.jnum 5) (Or.inr rfl),
   malformedInboundDiscarded.2.2 initState "" [("foo", JVal.jstr "bar")] rfl⟩

/-- C3 counterexample: `destroy` does not leave the pending content buffer
unchanged — on a state whose buffer holds `"x"` it resets the buffer to
empty, refuting the claim that only the consumer callback reference is
cleared. -/
theorem destroyClearsItemBuffer_cex :
    ¬ ((destroy { initState with pendingItemText := some "x" }).pendingItemText =
       ({ initState with pendingItemText := some "x" } : ApiState).pendingItemText) := by
  simp [destroy]

/-- C3 amended: `destroy` clears exactly the consumer callback reference and
the pending content buffer, leaving the transport listeners (untouched by
`destroy` altogether), the correlation table, the cached note item, the
pending save buffer, the session key, the origin and the registered gate
unchanged; consequently delivering new content (any object item whose
delivery does not throw: non-nullish `content`, `uuid` sliceable) after a
detach and then attaching a fresh consumer still yields exactly that
content. -/
theorem destroyClearsCallbackAndItemBuffer :
    (∀ s : ApiState,
      destroy s = { s with contentCallback := none, pendingItemText := none }) ∧
    (∀ (s : ApiState) (cb : Nat) (fs : List (String × JVal)),
      nullish (alookup fs "content") = false →
      sliceThrows (alookup fs "uuid") = false →
      (setItem (destroy s) (JVal.jobj fs)).threw = false ∧
      (initializeApi (setItem (destroy s) (JVal.jobj fs)).state cb).2 =
        [Ev.cbInvoke cb (itemText (JVal.jobj fs))]) := by
  refine ⟨fun s => rfl, ?_⟩
  intro s cb fs hc hu
  have hflush : ∀ x : JVal, alookup (aset fs "content" x) "uuid" = alookup fs "uuid" :=
    fun x => alookup_aset_other fs "content" "uuid" x (by decide)
  cases h : s.pendingSaveText <;>
    simp [destroy, setItem, saveText, postMessage, initializeApi, updatedItem,
      spreadFields, getF, h, hc, hu, hflush]

/-- C3 witness: a concrete detach / deliver / reattach run. -/
theorem destroyClearsCallbackAndItemBuffer_witness :
    (setItem (destroy initState) (JVal.jobj [("uuid", JVal.jstr "u1"),
        ("content", JVal.jobj [("text", JVal.jstr "new")])])).threw = false ∧
    (initializeApi (setItem (destroy initState) (JVal.jobj
        [("uuid", JVal.jstr "u1"),
         ("content", JVal.jobj [("text", JVal.jstr "new")])])).state 1).2 =
      [Ev.cbInvoke 1 (itemText (JVal.jobj [("uuid", JVal.jstr "u1"),
        ("content", JVal.jobj [("text", JVal.jstr "new")])]))] :=
  destroyClearsCallbackAndItemBuffer.2 initState 1
    [("uuid", JVal.jstr "u1"), ("content", JVal.jobj [("text", JVal.jstr "new")])]
    rfl rfl

/-- C5: delivering an object item (with non-nullish `content` and sliceable
`uuid`, so that delivery does not throw) while no consumer callback is
attached stores the item's text in the single-slot pending content buffer
(overwriting any prior value) without any consumer invocation; a subsequent
attach invokes the new callback exactly once with the buffered text and
clears the buffer; a second attach without a new delivery produces no
further invocation. -/
theorem bufferThenAttach (s : ApiState) (fs : List (String × JVal))
    (cb cb2 : Nat)
    (hc : nullish (alookup fs "content") = false)
    (hu : sliceThrows (alookup fs "uuid") = false) :
    (setItem { s with contentCallback := none } (JVal.jobj fs)).state.pendingItemText =
      some (itemText (JVal.jobj fs)) ∧
    cbEvents (setItem { s with contentCallback := none } (JVal.jobj fs)).events = [] ∧
    (initializeApi (setItem { s with contentCallback := none }
        (JVal.jobj fs)).state cb).2 =
      [Ev.cbInvoke cb (itemText (JVal.jobj fs))] ∧
    (initializeApi (setItem { s with contentCallback := none }
        (JVal.jobj fs)).state cb).1.pendingItemText = none ∧
    (initializeApi (initializeApi (setItem { s with contentCallback := none }
        (JVal.jobj fs)).state cb).1 cb2).2 = [] := by
  have hflush : ∀ x : JVal, alookup (aset fs "content" x) "uuid" = alookup fs "uuid" :=
    fun x => alookup_aset_other fs "content" "uuid" x (by decide)
  refine ⟨?_, ?_, ?_, ?_, ?_⟩ <;>
    cases h : s.pendingSaveText <;> cases hr : s.registered <;>
      simp [setItem, saveText, postMessage, initializeApi, cbEvents,
        updatedItem, spreadFields, getF, h, hr, hc, hu, hflush]

/-- C5 witness: a concrete buffer-then-attach run. -/
theorem bufferThenAttach_witness :
    (setItem { initState with contentCallback := none }
        (JVal.jobj [("uuid", JVal.jstr "u2"),
          ("content", JVal.jobj [("text", JVal.jstr "hello")])])).state.pendingItemText =
      some (itemText (JVal.jobj [("uuid", JVal.jstr "u2"),
        ("content", JVal.jobj [("text", JVal.jstr "hello")])])) ∧
    (initializeApi (setItem { initState with contentCallback := none }
        (JVal.jobj [("uuid", JVal.jstr "u2"),
          ("content", JVal.jobj [("text", JVal.jstr "hello")])])).state 1).2 =
      [Ev.cbInvoke 1 (itemText (JVal.jobj [("uuid", JVal.jstr "u2"),
        ("content", JVal.jobj [("text", JVal.jstr "hello")])]))] ∧
    (initializeApi (initializeApi (setItem { initState with contentCallback := none }
        (JVal.jobj [("uuid", JVal.jstr "u2"),
          ("content", JVal.jobj [("text", JVal.jstr "hello")])])).state 1).1 2).2 = [] :=
  (fun h => ⟨h.1, h.2.2.1, h.2.2.2.2⟩)
    (bufferThenAttach initState
      [("uuid", JVal.jstr "u2"), ("content", JVal.jobj [("text", JVal.jstr "hello")])]
      1 2 rfl rfl)

/-- The `text` field of the item `saveText` builds is exactly the saved
text. -/
theorem updatedItem_text (cur : JVal) (t : String) :
    getFO (getF (updatedItem cur t) "content") "text" = some (JVal.jstr t) := by
  simp only [updatedItem, getF, getFO, alookup_aset_self]
  rw [alookup_aset_other _ _ _ _ (by decide)]
  exact alookup_aset_self _ _ _

/-- The item inside the `save-items` payload built by `saveText` carries the
saved text. -/
theorem savedText_updated (cur : JVal) (t mid : String) (sk : JVal) :
    savedText ⟨"save-items", JVal.jobj [("items", JVal.jarr [updatedItem cur t])],
      mid, sk⟩ = some t := by
  have h1 : savedText ⟨"save-items",
      JVal.jobj [("items", JVal.jarr [updatedItem cur t])], mid, sk⟩ =
      itemTextField (updatedItem cur t) := rfl
  rw [h1]
  unfold itemTextField
  rw [updatedItem_text]

/-- Buffered saves coalesce: any run of `saveText` calls on a state with no
cached item transmits nothing, throws nothing, and leaves only the last
text in the pending save buffer. -/
theorem saveSeq_buffered (ts : List String) (t : String) (s : ApiState)
    (h : s.currentItem = none) :
    saveSeq s (ts ++ [t]) = ⟨{ s with pendingSaveText := some t }, [], false⟩ := by
  induction ts generalizing s with
  | nil => simp [saveSeq, saveText, h]
  | cons a as ih =>
      have step : saveText s a = ⟨{ s with pendingSaveText := some a }, [], false⟩ := by
        simp [saveText, h]
      have ih2 := ih { s with pendingSaveText := some a } h
      simp [saveSeq, step, ih2]

/-- C4: saves issued while no note item is cached transmit nothing, throw
nothing, and keep only the last text (last write wins); when an object item
(with non-nullish `content` and sliceable `uuid`, so delivery does not
throw) is then delivered, the flush clears the pending save buffer, nothing
throws, and exactly one outbound message is transmitted, a `save-items`
request whose item carries exactly that last text. -/
theorem lastWriteWinsPendingSave (s : ApiState) (ts : List String)
    (t : String) (fs : List (String × JVal))
    (hc : nullish (alookup fs "content") = false)
    (hu : sliceThrows (alookup fs "uuid") = false) :
    (saveSeq { s with currentItem := none, registered := true } (ts ++ [t])).events = [] ∧
    (saveSeq { s with currentItem := none, registered := true } (ts ++ [t])).state.pendingSaveText =
      some t ∧
    (setItem (saveSeq { s with currentItem := none, registered := true } (ts ++ [t])).state
        (JVal.jobj fs)).state.pendingSaveText = none ∧
    (setItem (saveSeq { s with currentItem := none, registered := true } (ts ++ [t])).state
        (JVal.jobj fs)).threw = false ∧
    ∃ m : OutMsg,
      sentEvents (setItem
        (saveSeq { s with currentItem := none, registered := true } (ts ++ [t])).state
        (JVal.jobj fs)).events = [m] ∧
      m.action = "save-items" ∧ savedText m = some t := by
  have hflush : ∀ x : JVal, alookup (aset fs "content" x) "uuid" = alookup fs "uuid" :=
    fun x => alookup_aset_other fs "content" "uuid" x (by decide)
  rw [saveSeq_buffered ts t { s with currentItem := none, registered := true } rfl]
  refine ⟨rfl, rfl, ?_, ?_, ?_⟩
  · cases h : s.contentCallback <;>
      simp [setItem, saveText, postMessage, updatedItem, spreadFields, getF,
        h, hc, hu, hflush]
  · cases h : s.contentCallback <;>
      simp [setItem, saveText, postMessage, updatedItem, spreadFields, getF,
        h, hc, hu, hflush]
  · refine ⟨⟨"save-items",
      JVal.jobj [("items", JVal.jarr [updatedItem (JVal.jobj fs) t])],
      generateUuid s.nextId, s.sessionKey⟩, ?_, rfl, ?_⟩
    · cases h : s.contentCallback <;>
        simp [setItem, saveText, postMessage, sentEvents, updatedItem,
          spreadFields, getF, h, hc, hu, hflush]
    · exact savedText_updated (JVal.jobj fs) t _ _

/-- C4 witness: a concrete save-save-bind run with last write "B". -/
theorem lastWriteWinsPendingSave_witness :
    (saveSeq { initState with currentItem := none, registered := true }
      (["A"] ++ ["B"])).state.pendingSaveText = some "B" ∧
    (setItem (saveSeq { initState with currentItem := none, registered := true }
      (["A"] ++ ["B"])).state (JVal.jobj [("uuid", JVal.jstr "u3"),
        ("content", JVal.jobj [("text", JVal.jstr "old")])])).state.pendingSaveText =
      none ∧
    ∃ m : OutMsg,
      sentEvents (setItem (saveSeq
        { initState with currentItem := none, registered := true }
        (["A"] ++ ["B"])).state (JVal.jobj [("uuid", JVal.jstr "u3"),
          ("content", JVal.jobj [("text", JVal.jstr "old")])])).events = [m] ∧
      m.action = "save-items" ∧ savedText m = some "B" :=
  (fun h => ⟨h.2.1, h.2.2.1, h.2.2.2.2⟩)
    (lastWriteWinsPendingSave initState ["A"] "B"
      [("uuid", JVal.jstr "u3"), ("content", JVal.jobj [("text", JVal.jstr "old")])]
      rfl rfl)

/-- C1 counterexample: with a one-shot (`save-items`) entry under
`"uuid-9"` in the table, an inbound message carrying that correlation
reference produces no handler invocation at all — the events are empty —
refuting the claim that the stored handler is invoked with the message's
data; the entry is nonetheless removed. -/
theorem oneShotEntryNotInvoked_cex :
    (handleMessage { initState with sentMessages := [("uuid-9", ⟨"save-items"⟩)] }
      "" (Inbound.val (JVal.jobj [("action", JVal.jstr "reply"),
        ("original", JVal.jobj [("messageId", JVal.jstr "uuid-9")]),
        ("data", JVal.jobj [])]))).events = [] ∧
    (handleMessage { initState with sentMessages := [("uuid-9", ⟨"save-items"⟩)] }
      "" (Inbound.val (JVal.jobj [("action", JVal.jstr "reply"),
        ("original", JVal.jobj [("messageId", JVal.jstr "uuid-9")]),
        ("data", JVal.jobj [])]))).state.sentMessages = [] :=
  ⟨rfl, rfl⟩

/-- C1 amended: an inbound message whose correlation reference matches a
one-shot entry causes the entry to be removed **without** invoking its
handler (the rest of the state is untouched and nothing is thrown), so
neither that message nor a second message bearing the same correlation
reference produces a handler invocation. -/
theorem oneShotEntryRemoval (s : ApiState) (eo a k act : String) (dv : JVal)
    (ha0 : a ≠ "") (ha1 : a ≠ "component-registered") (ha2 : a ≠ "themes")
    (hk : k ≠ "")
    (hlook : alookup s.sentMessages k = some ⟨act⟩)
    (hact : act ≠ "stream-context-item") :
    handleMessage s eo (Inbound.val (JVal.jobj [("action", JVal.jstr a),
        ("original", JVal.jobj [("messageId", JVal.jstr k)]), ("data", dv)])) =
      ⟨{ s with sentMessages := aremove s.sentMessages k }, [], false⟩ ∧
    handleMessage { s with sentMessages := aremove s.sentMessages k } eo
      (Inbound.val (JVal.jobj [("action", JVal.jstr a),
        ("original", JVal.jobj [("messageId", JVal.jstr k)]), ("data", dv)])) =
      ⟨{ s with sentMessages := aremove s.sentMessages k }, [], false⟩ := by
  constructor
  · simp [handleMessage, defaultBranch, getF, getFO, alookup, truthy, truthyO,
      typeofObject, sliceThrows, ha0, ha1, ha2, hk, hlook, hact]
  · simp [handleMessage, defaultBranch, getF, getFO, alookup, truthy, truthyO,
      typeofObject, sliceThrows, ha0, ha1, ha2, hk, alookup_aremove_self]

/-- C1 witness: the amended behaviour at a concrete state and message. -/
theorem oneShotEntryRemoval_witness :
    handleMessage { initState with sentMessages := [("uuid-3", ⟨"save-items"⟩)] }
      "" (Inbound.val (JVal.jobj [("action", JVal.jstr "reply"),
        ("original", JVal.jobj [("messageId", JVal.jstr "uuid-3")]),
        ("data", JVal.jnull)])) =
      ⟨{ { initState with sentMessages := [("uuid-3", ⟨"save-items"⟩)] } with
          sentMessages := aremove [("uuid-3", ⟨"save-items"⟩)] "uuid-3" }, [], false⟩ :=
  (oneShotEntryRemoval { initState with sentMessages := [("uuid-3", ⟨"save-items"⟩)] }
    "" "reply" "uuid-3" "save-items" JVal.jnull
    (by decide) (by decide) (by decide) (by decide) rfl (by decide)).1

/-- C2 counterexample: from the initial state, two registration messages
leave **two** persistent (`stream-context-item`) entries in the correlation
table — the reachable-state invariant "at most one persistent entry" is
false, and the second registration added a second entry instead of
replacing the first. -/
theorem persistentEntryDuplicated_cex :
    countPersistent ((handleMessage
      (handleMessage initState "https://app" (Inbound.val (JVal.jobj
        [("action", JVal.jstr "component-registered"),
         ("sessionKey", JVal.jstr "sess-1")]))).state
      "https://app" (Inbound.val (JVal.jobj
        [("action", JVal.jstr "component-registered"),
         ("sessionKey", JVal.jstr "sess-1")]))).state.sentMessages) = 2 :=
  rfl

/-- C2 amended: every registration message whose session key does not make
the registration debug log throw (the stored key must be nullish or carry a
`slice` method, as every real string session key does) leaves the previously
registered entries in place and inserts one more persistent entry under a
freshly generated identifier, so after a re-handshake the table holds one
more persistent entry than before (not a replaced one): the correlation
table can hold several persistent entries. -/
theorem persistentEntryAccumulates (s : ApiState) (eo : String) (sk : JVal)
    (hsk : sliceThrows (some (jsOr (some sk) JVal.jnull)) = false) :
    (handleMessage s eo (Inbound.val (JVal.jobj
        [("action", JVal.jstr "component-registered"),
         ("sessionKey", sk)]))).state.sentMessages =
      aset s.sentMessages (generateUuid (s.nextId + 1)) ⟨"stream-context-item"⟩ ∧
    (handleMessage s eo (Inbound.val (JVal.jobj
        [("action", JVal.jstr "component-registered"),
         ("sessionKey", sk)]))).threw = false ∧
    (handleMessage s eo (Inbound.val (JVal.jobj
        [("action", JVal.jstr "component-registered"),
         ("sessionKey", sk)]))).state.registered = true ∧
    (alookup s.sentMessages (generateUuid (s.nextId + 1)) = none →
      countPersistent (handleMessage s eo (Inbound.val (JVal.jobj
        [("action", JVal.jstr "component-registered"),
         ("sessionKey", sk)]))).state.sentMessages =
        countPersistent s.sentMessages + 1) := by
  simp only [jsOr, truthy] at hsk
  refine ⟨?_, ?_, ?_, ?_⟩
  · simp [handleMessage, regBranch, themeUrlsOf, jsOr, getF, getFO, alookup,
      postMessage, nonIterable, truthy, truthyO, typeofObject, hsk]
  · simp [handleMessage, regBranch, themeUrlsOf, jsOr, getF, getFO, alookup,
      postMessage, nonIterable, truthy, truthyO, typeofObject, hsk]
  · simp [handleMessage, regBranch, themeUrlsOf, jsOr, getF, getFO, alookup,
      postMessage, nonIterable, truthy, truthyO, typeofObject, hsk]
  · intro hfresh
    have h1 : (handleMessage s eo (Inbound.val (JVal.jobj
        [("action", JVal.jstr "component-registered"),
         ("sessionKey", sk)]))).state.sentMessages =
        aset s.sentMessages (generateUuid (s.nextId + 1)) ⟨"stream-context-item"⟩ := by
      simp [handleMessage, regBranch, themeUrlsOf, jsOr, getF, getFO, alookup,
        postMessage, nonIterable, truthy, truthyO, typeofObject, hsk]
    rw [h1, aset_fresh_append _ _ _ hfresh]
    simp [countPersistent, List.filter_append]

/-- C2 witness: the amended behaviour from the initial state with a string
session key, where the no-throw and freshness hypotheses hold by
computation. -/
theorem persistentEntryAccumulates_witness :
    (handleMessage initState "https://app" (Inbound.val (JVal.jobj
        [("action", JVal.jstr "component-registered"),
         ("sessionKey", JVal.jstr "sess-1")]))).state.sentMessages =
      aset [] (generateUuid 1) ⟨"stream-context-item"⟩ ∧
    countPersistent (handleMessage initState "https://app" (Inbound.val (JVal.jobj
        [("action", JVal.jstr "component-registered"),
         ("sessionKey", JVal.jstr "sess-1")]))).state.sentMessages =
      countPersistent initState.sentMessages + 1 :=
  ⟨(persistentEntryAccumulates initState "https://app" (JVal.jstr "sess-1") rfl).1,
   (persistentEntryAccumulates initState "https://app" (JVal.jstr "sess-1") rfl).2.2.2 rfl⟩

/-- C6: when a matched subscription response yields an extracted item whose
metadata-only flag is set, delivery is suppressed: the handler run returns
the state **exactly** unchanged (cached item, pending content buffer,
pending save buffer and correlation table included) and the only event is
the correlation-handler invocation — no consumer-callback invocation and no
send.  The item's `uuid` must not make the closure's debug log throw (it is
nullish or has a `slice` method); the matched-subscription path is the only
inbound path on which `extractItem` is ever called, so this covers every
path that can produce an extracted item. -/
theorem metadataOnlySuppression (s : ApiState) (eo a k : String)
    (dv item : JVal)
    (ha0 : a ≠ "") (ha1 : a ≠ "component-registered") (ha2 : a ≠ "themes")
    (hk : k ≠ "")
    (hlook : alookup s.sentMessages k = some ⟨"stream-context-item"⟩)
    (hex : extractItem (some dv) = Except.ok (some item))
    (hu : sliceThrows (getF item "uuid") = false)
    (hmeta : truthyO (getF item "isMetadataUpdate") = true) :
    handleMessage s eo (Inbound.val (JVal.jobj [("action", JVal.jstr a),
        ("original", JVal.jobj [("messageId", JVal.jstr k)]), ("data", dv)])) =
      ⟨s, [Ev.handlerInvoke k (some dv)], false⟩ := by
  simp only [sliceThrows, getF] at hu
  simp only [truthyO, getF, truthy] at hmeta
  simp [handleMessage, defaultBranch, subClosure, getF, getFO, alookup,
    truthy, truthyO, typeofObject, sliceThrows, ha0, ha1, ha2, hk, hlook,
    hex, hu, hmeta]

/-- C6 witness: a concrete metadata-only delivery is suppressed. -/
theorem metadataOnlySuppression_witness :
    handleMessage { initState with sentMessages := [("uuid-7", ⟨"stream-context-item"⟩)] }
      "" (Inbound.val (JVal.jobj [("action", JVal.jstr "reply"),
        ("original", JVal.jobj [("messageId", JVal.jstr "uuid-7")]),
        ("data", JVal.jobj [("item", JVal.jobj
          [("content", JVal.jobj [("text", JVal.jstr "T")]),
           ("isMetadataUpdate", JVal.jbool true)])])])) =
      ⟨{ initState with sentMessages := [("uuid-7", ⟨"stream-context-item"⟩)] },
        [Ev.handlerInvoke "uuid-7" (some (JVal.jobj [("item", JVal.jobj
          [("content", JVal.jobj [("text", JVal.jstr "T")]),
           ("isMetadataUpdate", JVal.jbool true)])]))], false⟩ :=
  metadataOnlySuppression
    { initState with sentMessages := [("uuid-7", ⟨"stream-context-item"⟩)] }
    "" "reply" "uuid-7"
    (JVal.jobj [("item", JVal.jobj
      [("content", JVal.jobj [("text", JVal.jstr "T")]),
       ("isMetadataUpdate", JVal.jbool true)])])
    (JVal.jobj [("content", JVal.jobj [("text", JVal.jstr "T")]),
       ("isMetadataUpdate", JVal.jbool true)])
    (by decide) (by decide) (by decide) (by decide) rfl rfl rfl rfl

/-- Any item produced by strategy (c) has a truthy content sub-field. -/
theorem strategyC_content (v it : JVal) (h : strategyC v = some it) :
    truthyO (getF it "content") = true := by
  unfold strategyC at h
  by_cases hc : (truthyO (getF v "content") && truthyO (getF v "uuid")) = true
  · rw [if_pos hc] at h
    obtain rfl := Option.some.inj h
    rw [Bool.and_eq_true] at hc
    exact hc.1
  · rw [if_neg hc] at h
    simp at h

/-- C7 counterexample: on the payload `{"items":[null]}` the extractor does
not return the first match or none — the access `data.items[0].content`
throws a `TypeError` — although the claim's three-strategy contract,
followed literally, returns none there. -/
theorem extractItemNullHead_cex :
    extractItem (some (JVal.jobj [("items", JVal.jarr [JVal.jnull])])) =
      Except.error () ∧
    specThreeStrategy (some (JVal.jobj [("items", JVal.jarr [JVal.jnull])])) =
      none :=
  ⟨rfl, rfl⟩

/-- C7 amended: the extractor throws exactly on payloads whose list field is
an array with a null first element (after strategy (a) fails); on every
other payload it returns the first match of the three strategies in order,
or none; and every returned item has a (truthy) content sub-field — an item
lacking one is never returned. -/
theorem extractItemThreeStrategies (d : Option JVal) :
    (extractItem d = Except.error () ↔ extractThrows d = true) ∧
    (extractThrows d = false → extractItem d = Except.ok (specThreeStrategy d)) ∧
    (∀ it : JVal, extractItem d = Except.ok (some it) →
      truthyO (getF it "content") = true) := by
  cases d with
  | none =>
      refine ⟨by simp [extractItem, extractThrows], fun _ => rfl, fun it h => ?_⟩
      simp [extractItem] at h
  | some v =>
      by_cases h1 : truthy v = false
      · refine ⟨by simp [extractItem, extractThrows, h1],
          fun _ => by simp [extractItem, specThreeStrategy, h1],
          fun it h => ?_⟩
        simp [extractItem, h1] at h
      · by_cases h2 :
          (truthyO (getF v "item") && truthyO (getFO (getF v "item") "content")) = true
        · refine ⟨by simp [extractItem, extractThrows, h1, h2],
            fun _ => by simp [extractItem, specThreeStrategy, h1, h2],
            fun it h => ?_⟩
          simp [extractItem, h1, h2] at h
          rw [Bool.and_eq_true] at h2
          have hc := h2.2
          rw [h] at hc
          exact hc
        · cases hits : getF v "items" with
          | none =>
              refine ⟨by simp [extractItem, extractThrows, h1, h2, hits],
                fun _ => by simp [extractItem, specThreeStrategy, h1, h2, hits],
                fun it h => ?_⟩
              simp [extractItem, h1, h2, hits] at h
              exact strategyC_content v it h
          | some w =>
              cases w with
              | jnull =>
                  refine ⟨by simp [extractItem, extractThrows, h1, h2, hits],
                    fun _ => by simp [extractItem, specThreeStrategy, h1, h2, hits],
                    fun it h => ?_⟩
                  simp [extractItem, h1, h2, hits] at h
                  exact strategyC_content v it h
              | jbool b =>
                  refine ⟨by simp [extractItem, extractThrows, h1, h2, hits],
                    fun _ => by simp [extractItem, specThreeStrategy, h1, h2, hits],
                    fun it h => ?_⟩
                  simp [extractItem, h1, h2, hits] at h
                  exact strategyC_content v it h
              | jnum n =>
                  refine ⟨by simp [extractItem, extractThrows, h1, h2, hits],
                    fun _ => by simp [extractItem, specThreeStrategy, h1, h2, hits],
                    fun it h => ?_⟩
                  simp [extractItem, h1, h2, hits] at h
                  exact strategyC_content v it h
              | jstr sx =>
                  refine ⟨by simp [extractItem, extractThrows, h1, h2, hits],
                    fun _ => by simp [extractItem, specThreeStrategy, h1, h2, hits],
                    fun it h => ?_⟩
                  simp [extractItem, h1, h2, hits] at h
                  exact strategyC_content v it h
              | jobj fs =>
                  refine ⟨by simp [extractItem, extractThrows, h1, h2, hits],
                    fun _ => by simp [extractItem, specThreeStrategy, h1, h2, hits],
                    fun it h => ?_⟩
                  simp [extractItem, h1, h2, hits] at h
                  exact strategyC_content v it h
              | jarr xs =>
                  cases xs with
                  | nil =>
                      refine ⟨by simp [extractItem, extractThrows, h1, h2, hits],
                        fun _ => by simp [extractItem, specThreeStrategy, h1, h2, hits],
                        fun it h => ?_⟩
                      simp [extractItem, h1, h2, hits] at h
                      exact strategyC_content v it h
                  | cons x rest =>
                      refine ⟨?_, ?_, ?_⟩
                      · simp [extractItem, extractThrows, h1, h2, hits]
                        by_cases hn : isNull x = true <;> simp [hn]
                        split <;> simp
                      · intro hthrow
                        simp [extractThrows, h1, h2, hits] at hthrow
                        simp [extractItem, specThreeStrategy, h1, h2, hits, hthrow]
                        split <;> rfl
                      · intro it h
                        simp [extractItem, h1, h2, hits] at h
                        by_cases hn : isNull x = true
                        · simp [hn] at h
                        · simp [hn] at h
                          by_cases h3 : truthyO (getF x "content") = true
                          · rw [if_pos h3] at h
                            obtain rfl := Option.some.inj (Except.ok.inj h)
                            exact h3
                          · rw [if_neg h3] at h
                            exact strategyC_content v it (Except.ok.inj h)

/-- C7 witness: on a payload matching strategy (c) the extractor does not
throw and returns the strategy result, which carries a content sub-field. -/
theorem extractItemThreeStrategies_witness :
    extractItem (some (JVal.jobj [("uuid", JVal.jstr "u"), ("content", JVal.jobj [])])) =
      Except.ok (specThreeStrategy
        (some (JVal.jobj [("uuid", JVal.jstr "u"), ("content", JVal.jobj [])]))) ∧
    truthyO (getF (JVal.jobj [("uuid", JVal.jstr "u"), ("content", JVal.jobj [])])
      "content") = true :=
  ⟨(extractItemThreeStrategies _).2.1 rfl,
   (extractItemThreeStrategies
     (some (JVal.jobj [("uuid", JVal.jstr "u"), ("content", JVal.jobj [])]))).2.2
     (JVal.jobj [("uuid", JVal.jstr "u"), ("content", JVal.jobj [])]) rfl⟩



